import Mathlib

/-!
Shallow embedding of the position-and-annotation persistence engine of the
digital-story-sanctuary repository.

Sources embedded:
* `src/contexts/AnnotationContext.tsx` — in-memory mirrors of the four record
  collections plus the operations `addAnnotation`, `updateAnnotation`,
  `deleteAnnotation`, `getAnnotationsForFile`, `updateProgress`,
  `startSession`, `endSession`, `getSessionsForFile`.
* `src/contexts/EbookContext.tsx` — the document catalog operation `removeFile`.
* `src/lib/idb.ts` — the IndexedDB collections and `deleteEbookFromDB`.
* `src/components/ReadingStats.tsx` (reading statistics panel) — `getReadingStreak`.
* `src/types/annotations.ts` — the record types.

Modelling conventions:
* JavaScript `Date` values are epoch milliseconds, modelled as `Int`.
  `Math.floor(x / d)` on such integer values is `Int.fdiv x d`.
* The float `percentage` is modelled as `Int`: every claim concerns only
  comparison with the bounds 0/100 and exact preservation, neither of which
  depends on fractional values.
* Generated identifiers (`Date.now().toString() + random`) and clock reads
  (`new Date()`) are passed in as explicit parameters.
* An awaited IndexedDB write that may reject is modelled by a `Bool`
  parameter (`true` = the write succeeded); the source's `try/catch` blocks
  determine what happens to the in-memory state in each case.
* `Record<string, T>` objects are association lists with the JavaScript
  object-spread update semantics (replace in place, append if new).
-/

namespace DSS

/-- A place in a document: the `currentPosition` of `ReadingProgress` and the
`position` of an `Annotation` in `src/types/annotations.ts`.  Fields absent
for a document format are `none`. -/
structure Position where
  cfi : Option String := none
  page : Option Int := none
  line : Option Int := none
  offset : Option Int := none
  percentage : Int := 0
deriving DecidableEq

/-- The `type` field of an annotation record. -/
inductive AnnKind
  | highlight
  | note
  | bookmark
deriving DecidableEq

/-- An annotation record (`Annotation` in `src/types/annotations.ts`).
The source field `type` is called `kind` here. -/
structure Annot where
  id : String
  fileId : String
  kind : AnnKind
  content : String
  note : Option String := none
  position : Position
  color : String
  createdAt : Int
  updatedAt : Int
deriving DecidableEq

/-- A progress record (`ReadingProgress` in `src/types/annotations.ts`).
`totalReadingTime` is in minutes, `lastReadAt` in epoch milliseconds. -/
structure ReadingProgress where
  fileId : String
  currentPosition : Position
  totalReadingTime : Int
  lastReadAt : Int
  isFinished : Bool
deriving DecidableEq

/-- A session record (`ReadingSession` in `src/types/annotations.ts`).
`endTime` is absent while the session is open; `duration` is in minutes. -/
structure ReadingSession where
  id : String
  fileId : String
  startTime : Int
  endTime : Option Int := none
  duration : Int
  pagesRead : Option Int := none
  wordsRead : Option Int := none
deriving DecidableEq

/-- The in-memory state held by `AnnotationProvider` in
`src/contexts/AnnotationContext.tsx`: the four `useState` slots. -/
structure AnnState where
  annotations : List Annot
  readingProgress : List (String × ReadingProgress)
  readingSessions : List ReadingSession
  currentSession : Option ReadingSession
deriving DecidableEq

/-- Key lookup in a `Record<string, ReadingProgress>` object
(`readingProgress[fileId]`). -/
def lookupRP : List (String × ReadingProgress) → String → Option ReadingProgress
  | [], _ => none
  | (k, v) :: rest, f => if k = f then some v else lookupRP rest f

/-- Key update via object spread, `{...prev, [fileId]: entry}`: an existing
key keeps its place, a new key is appended. -/
def setRP : List (String × ReadingProgress) → String → ReadingProgress →
    List (String × ReadingProgress)
  | [], f, v => [(f, v)]
  | (k, w) :: rest, f, v =>
    if k = f then (f, v) :: rest else (k, w) :: setRP rest f v

/-- `addAnnotation` (AnnotationContext.tsx l.76–89).  The record `a` is the
`newAnnotation` built there (generated id and timestamps are its fields).
The state is appended to only after `addAnnotationToDB` succeeds; on a
rejected write the `catch` block leaves the state untouched. -/
def addAnnotRun (okDB : Bool) (st : AnnState) (a : Annot) : AnnState :=
  if okDB then { st with annotations := st.annotations ++ [a] } else st

/-- `Partial<Annotation>`: the `updates` argument of `updateAnnotation`.
A `none` field is absent from the partial object. -/
structure AnnotPatch where
  id : Option String := none
  fileId : Option String := none
  kind : Option AnnKind := none
  content : Option String := none
  note : Option (Option String) := none
  position : Option Position := none
  color : Option String := none
  createdAt : Option Int := none
  updatedAt : Option Int := none
deriving DecidableEq

/-- The merge `{ ...annotation, ...updates, updatedAt: new Date() }`
performed by `updateAnnotation`: present patch fields override, and
`updatedAt` is set to the current time last, overriding even a patch that
carries its own `updatedAt`. -/
def applyPatch (a : Annot) (p : AnnotPatch) (now : Int) : Annot :=
  { id := p.id.getD a.id
    fileId := p.fileId.getD a.fileId
    kind := p.kind.getD a.kind
    content := p.content.getD a.content
    note := p.note.getD a.note
    position := p.position.getD a.position
    color := p.color.getD a.color
    createdAt := p.createdAt.getD a.createdAt
    updatedAt := now }

/-- `updateAnnotation` (AnnotationContext.tsx l.91–111).  `setAnnotations`
replaces the in-memory list *before* the durable write is attempted, so the
new list is installed whether or not `updateAnnotationInDB` later succeeds
(`okDB` is irrelevant to the state); the `catch` block only logs and does
not revert.  The returned `Bool` is whether the promise rejects: it never
does (a missing id is silently skipped, a failed write is caught), so it is
`false` on every path. -/
def updateAnnotRun (okDB : Bool) (st : AnnState) (i : String) (p : AnnotPatch)
    (now : Int) : AnnState × Bool :=
  let _ := okDB
  ({ st with
      annotations :=
        st.annotations.map fun a => if a.id = i then applyPatch a p now else a },
    false)

/-- `deleteAnnotation` (AnnotationContext.tsx l.113–120): the in-memory list
is filtered only after `deleteAnnotationFromDB` succeeds. -/
def deleteAnnotRun (okDB : Bool) (st : AnnState) (i : String) : AnnState :=
  if okDB then
    { st with annotations := st.annotations.filter fun a => a.id != i }
  else st

/-- `getAnnotationsForFile` (AnnotationContext.tsx l.122–124). -/
def getAnnotationsForFile (st : AnnState) (fid : String) : List Annot :=
  st.annotations.filter fun a => a.fileId == fid

/-- The `newProgressEntry` built by `updateProgress`
(AnnotationContext.tsx l.127–133): position stored exactly as supplied,
previous cumulative time carried over (`?.totalReadingTime || 0`), and
`isFinished := position.percentage >= 100` — recomputed from the supplied
percentage alone, without consulting the previous flag. -/
def mkProgressEntry (st : AnnState) (fid : String) (pos : Position) (now : Int) :
    ReadingProgress :=
  let prevTime := ((lookupRP st.readingProgress fid).map fun p => p.totalReadingTime).getD 0
  { fileId := fid
    currentPosition := pos
    totalReadingTime := prevTime
    lastReadAt := now
    isFinished := decide (100 ≤ pos.percentage) }

/-- `updateProgress` (AnnotationContext.tsx l.126–143): the entry is stored
into the in-memory map only after `saveReadingProgressToDB` succeeds. -/
def updateProgressRun (okDB : Bool) (st : AnnState) (fid : String)
    (pos : Position) (now : Int) : AnnState :=
  if okDB then
    let entry := mkProgressEntry st fid pos now
    { st with readingProgress := setRP st.readingProgress fid entry }
  else st

/-- `getProgress` (AnnotationContext.tsx l.145–147). -/
def getProgress (st : AnnState) (fid : String) : Option ReadingProgress :=
  lookupRP st.readingProgress fid

/-- `startSession` (AnnotationContext.tsx l.149–158): builds a fresh open
session and stores it in the single `currentSession` slot, overwriting
whatever was there; nothing is persisted and no other state is touched. -/
def startSessionRun (st : AnnState) (fid : String) (newId : String) (now : Int) :
    AnnState :=
  let session : ReadingSession := { id := newId, fileId := fid, startTime := now, duration := 0 }
  { st with currentSession := some session }

/-- `endSession` (AnnotationContext.tsx l.160–202).  With an open session:
`duration = Math.floor((endTime - startTime) / 60000)`; the closed session is
appended only if `addReadingSessionToDB` succeeds (`okSession`), then the
progress record (or a zero default) gets `totalReadingTime + duration` and is
stored only if `saveReadingProgressToDB` succeeds (`okProgress`); a failure
skips the remaining statements via `catch`, and the `finally` block clears
`currentSession` on every path. -/
def endSessionRun (okSession okProgress : Bool) (st : AnnState) (now : Int) :
    AnnState :=
  match st.currentSession with
  | none => st
  | some cur =>
    let dur := Int.fdiv (now - cur.startTime) 60000
    let completed : ReadingSession := { cur with endTime := some now, duration := dur }
    if okSession then
      let currentProgress := (lookupRP st.readingProgress cur.fileId).getD
        { fileId := cur.fileId
          currentPosition := { percentage := 0 }
          totalReadingTime := 0
          lastReadAt := now
          isFinished := false }
      let updatedProgressForFile : ReadingProgress :=
        { currentProgress with
            totalReadingTime := currentProgress.totalReadingTime + dur
            lastReadAt := now }
      if okProgress then
        { st with
            readingSessions := st.readingSessions ++ [completed]
            readingProgress := setRP st.readingProgress cur.fileId updatedProgressForFile
            currentSession := none }
      else
        { st with
            readingSessions := st.readingSessions ++ [completed]
            currentSession := none }
    else
      { st with currentSession := none }

/-- `getSessionsForFile` (AnnotationContext.tsx l.204–206). -/
def getSessionsForFile (st : AnnState) (fid : String) : List ReadingSession :=
  st.readingSessions.filter fun s => s.fileId == fid

/-- Stable insertion into a list sorted descending by `startTime`: the new
element goes after every element with a strictly larger key and before equal
keys, as the (stable) JavaScript `sort` with comparator
`(a, b) => b.startTime - a.startTime` orders them. -/
def insertDesc (s : ReadingSession) : List ReadingSession → List ReadingSession
  | [] => [s]
  | t :: rest =>
    if t.startTime > s.startTime then t :: insertDesc s rest else s :: t :: rest

/-- Sort sessions descending by start time (`readingSessions.sort(...)` in
`getReadingStreak`, ReadingStats.tsx l.27). -/
def sortByStartDesc : List ReadingSession → List ReadingSession
  | [] => []
  | s :: rest => insertDesc s (sortByStartDesc rest)

/-- The `for` loop of `getReadingStreak` (ReadingStats.tsx l.31–41), with the
mutable `currentDate` and `streak` as accumulators:
`daysDiff = Math.floor((currentDate - sessionDate) / 86400000)`; a session
with `daysDiff === streak` increments the streak and moves the cursor to its
start; `daysDiff > streak` breaks out of the loop; a smaller `daysDiff` is
skipped. -/
def streakLoop : List ReadingSession → Int → Nat → Nat
  | [], _, streak => streak
  | s :: rest, currentDate, streak =>
    let daysDiff := Int.fdiv (currentDate - s.startTime) 86400000
    if daysDiff = (streak : Int) then streakLoop rest s.startTime (streak + 1)
    else if daysDiff > (streak : Int) then streak
    else streakLoop rest currentDate streak

/-- `getReadingStreak` (ReadingStats.tsx l.25–44): sort all sessions by start
time descending, then walk with cursor initialized to `today` and streak 0. -/
def getReadingStreak (sessions : List ReadingSession) (today : Int) : Nat :=
  streakLoop (sortByStartDesc sessions) today 0

/-- The calendar day an epoch-millisecond timestamp falls on (whole days
since the epoch). -/
def dayIndex (t : Int) : Int := Int.fdiv t 86400000

/-- Count how many consecutive calendar days, starting at day `d` and walking
backward one day at a time, have at least one entry in `days`; the fuel is an
upper bound on the answer (the walk stops at the first missing day, so at
most `days.length` distinct days can ever be counted). -/
def consecDays (days : List Int) : Nat → Int → Nat
  | 0, _ => 0
  | fuel + 1, d => if days.contains d then 1 + consecDays days fuel (d - 1) else 0

/-- The reading-streak query as the claim describes it: walking backward from
today in whole calendar days, the streak increments while each next session
day is exactly one calendar day before the running cursor day (sessions on
the current cursor day are already counted), and the walk terminates at the
first gap larger than one day.  Equivalently: the number of consecutive
calendar days, today included, that contain at least one session start. -/
def claimStreak (sessions : List ReadingSession) (today : Int) : Nat :=
  consecDays (sessions.map fun s => dayIndex s.startTime) sessions.length (dayIndex today)

/-- The amended streak walk: over sessions sorted by start time descending,
with cursor initialized to now and count 0, a session whose start lies
exactly `count` whole 24-hour periods before the cursor — that is,
`count·86400000 ≤ cursor − start < (count+1)·86400000` in milliseconds —
increments the count and moves the cursor to that start; a session nearer
than that is skipped; the walk terminates at the first session farther than
that. -/
def amendedStreakLoop : List ReadingSession → Int → Nat → Nat
  | [], _, count => count
  | s :: rest, cursor, count =>
    if (count : Int) * 86400000 ≤ cursor - s.startTime ∧
        cursor - s.startTime < ((count : Int) + 1) * 86400000 then
      amendedStreakLoop rest s.startTime (count + 1)
    else if ((count : Int) + 1) * 86400000 ≤ cursor - s.startTime then count
    else amendedStreakLoop rest cursor count

/-- The amended streak query. -/
def amendedStreak (sessions : List ReadingSession) (today : Int) : Nat :=
  amendedStreakLoop (sortByStartDesc sessions) today 0

/-- The document format tag (`EbookFile['type']` in EbookContext.tsx). -/
inductive EbookType
  | epub
  | pdf
  | txt
deriving DecidableEq

/-- A catalog entry (`EbookFile` in `src/contexts/EbookContext.tsx`).  The
source field `type` is called `kind` here; the binary payload (`file`) is
abstracted as an opaque string; the cached outline and cover reference are
omitted as irrelevant to the claims (no claim mentions them and `removeFile`
does not touch them). -/
structure EbookFile where
  id : String
  name : String
  kind : EbookType
  payload : String
  addedAt : Int
  title : Option String := none
  author : Option String := none
  genre : Option String := none
  lastReadAt : Option Int := none
deriving DecidableEq

/-- The four IndexedDB object stores created in `src/lib/idb.ts` (`ebooks`,
`annotations`, `readingProgress`, `readingSessions`). -/
structure DB where
  ebooks : List EbookFile
  annots : List Annot
  progressRecs : List ReadingProgress
  sessions : List ReadingSession
deriving DecidableEq

/-- `deleteEbookFromDB` (idb.ts l.107–116): opens a transaction on the
`ebooks` store only and deletes the record with the given key; the other
three stores are not part of the transaction. -/
def deleteEbookFromDB (db : DB) (i : String) : DB :=
  { db with ebooks := db.ebooks.filter fun e => e.id != i }

/-- Annotations for a document, via the `fileId` index of the `annotations`
store. -/
def annotsForFileDB (db : DB) (fid : String) : List Annot :=
  db.annots.filter fun a => a.fileId == fid

/-- Sessions for a document, via the `fileId` index of the `readingSessions`
store. -/
def sessionsForFileDB (db : DB) (fid : String) : List ReadingSession :=
  db.sessions.filter fun s => s.fileId == fid

/-- Progress for a document, keyed by `fileId` in the `readingProgress`
store. -/
def progressForFileDB (db : DB) (fid : String) : Option ReadingProgress :=
  db.progressRecs.find? fun p => p.fileId == fid

/-- The catalog state of `EbookProvider` (EbookContext.tsx): the durable
store plus the `files` and `currentFile` state slots. -/
structure CatalogState where
  db : DB
  files : List EbookFile
  currentFile : Option EbookFile
deriving DecidableEq

/-- The `for` loop of `removeFile`: `deleteEbookFromDB` awaited for each id
in turn. -/
def deleteMany (db : DB) : List String → DB
  | [] => db
  | i :: rest => deleteMany (deleteEbookFromDB db i) rest

/-- `removeFile` (EbookContext.tsx l.149–162), success path: every id is
deleted from the `ebooks` store, the `files` state drops the matching
entries, and `currentFile` is cleared when its id is among those removed.
No other store and no other state slot is touched. -/
def removeFileRun (st : CatalogState) (ids : List String) : CatalogState :=
  { db := deleteMany st.db ids
    files := st.files.filter fun f => ! ids.contains f.id
    currentFile :=
      match st.currentFile with
      | some cf => if ids.contains cf.id then none else some cf
      | none => none }

/-! ### Helper lemmas -/

theorem lookupRP_setRP_self (m : List (String × ReadingProgress)) (f : String)
    (v : ReadingProgress) : lookupRP (setRP m f v) f = some v := by
  induction m with
  | nil => simp [setRP, lookupRP]
  | cons kv rest ih =>
    obtain ⟨k, w⟩ := kv
    by_cases h : k = f
    · simp [setRP, lookupRP, h]
    · simp [setRP, lookupRP, h, ih]

theorem deleteMany_annots (ids : List String) : ∀ db : DB,
    (deleteMany db ids).annots = db.annots := by
  induction ids with
  | nil => intro db; rfl
  | cons i rest ih => intro db; exact ih (deleteEbookFromDB db i)

theorem deleteMany_progressRecs (ids : List String) : ∀ db : DB,
    (deleteMany db ids).progressRecs = db.progressRecs := by
  induction ids with
  | nil => intro db; rfl
  | cons i rest ih => intro db; exact ih (deleteEbookFromDB db i)

theorem deleteMany_sessions (ids : List String) : ∀ db : DB,
    (deleteMany db ids).sessions = db.sessions := by
  induction ids with
  | nil => intro db; rfl
  | cons i rest ih => intro db; exact ih (deleteEbookFromDB db i)

theorem deleteMany_ebooks (ids : List String) : ∀ db : DB,
    (deleteMany db ids).ebooks = db.ebooks.filter fun e => ! ids.contains e.id := by
  induction ids with
  | nil => intro db; simp [deleteMany]
  | cons i rest ih =>
    intro db
    show (deleteMany (deleteEbookFromDB db i) rest).ebooks = _
    rw [ih]
    show (db.ebooks.filter fun e => e.id != i).filter (fun e => ! rest.contains e.id) = _
    rw [List.filter_filter]
    apply List.filter_congr
    intro e _
    simp only [List.contains_cons, Bool.not_or]
    by_cases h : e.id = i <;> by_cases h2 : e.id ∈ rest <;> simp [h, h2, bne]

/-! ### C1: cascade delete -/

def exDocC1 : EbookFile :=
  { id := "d1", name := "b.txt", kind := EbookType.txt, payload := "x", addedAt := 0 }

def exAnnotC1 : Annot :=
  { id := "a1", fileId := "d1", kind := AnnKind.highlight, content := "t",
    position := {}, color := "#ffeb3b", createdAt := 0, updatedAt := 0 }

def exProgC1 : ReadingProgress :=
  { fileId := "d1", currentPosition := { percentage := 10 },
    totalReadingTime := 3, lastReadAt := 0, isFinished := false }

def exSessC1 : ReadingSession :=
  { id := "s1", fileId := "d1", startTime := 0, endTime := some 60000, duration := 1 }

def exCatC1 : CatalogState :=
  { db := { ebooks := [exDocC1], annots := [exAnnotC1],
            progressRecs := [exProgC1], sessions := [exSessC1] },
    files := [exDocC1], currentFile := none }

/-- C1 counterexample: a document with one dependent annotation, progress and
session record; after `removeFile` completes for its id, all three dependent
records survive — `removeFile` deletes only from the `ebooks` store, so the
claimed cascade does not happen. -/
theorem c1_counterexample :
    ¬ (annotsForFileDB (removeFileRun exCatC1 ["d1"]).db "d1" = [] ∧
       sessionsForFileDB (removeFileRun exCatC1 ["d1"]).db "d1" = [] ∧
       progressForFileDB (removeFileRun exCatC1 ["d1"]).db "d1" = none) := by
  decide

/-- C1 (amended): `removeFile` removes exactly the listed ids from the
`ebooks` store and from the in-memory `files` list, and performs no cascade:
the annotation, progress and session collections are left untouched, so
dependent records of a removed document survive. -/
theorem removeFile_no_cascade (st : CatalogState) (ids : List String) :
    (removeFileRun st ids).db.annots = st.db.annots ∧
    (removeFileRun st ids).db.progressRecs = st.db.progressRecs ∧
    (removeFileRun st ids).db.sessions = st.db.sessions ∧
    (removeFileRun st ids).db.ebooks = (st.db.ebooks.filter fun e => ! ids.contains e.id) ∧
    (removeFileRun st ids).files = (st.files.filter fun f => ! ids.contains f.id) :=
  ⟨deleteMany_annots ids st.db, deleteMany_progressRecs ids st.db,
   deleteMany_sessions ids st.db, deleteMany_ebooks ids st.db, rfl⟩

/-! ### C2, C3: progress invariants -/

def emptyAnn : AnnState :=
  { annotations := [], readingProgress := [], readingSessions := [], currentSession := none }

def posAt (n : Int) : Position := { percentage := n }

/-- C2 counterexample: record a position at 100% (stored `isFinished = true`),
then record a position at 50% — the stored flag flips back to `false`, because
`updateProgress` recomputes `isFinished` from the supplied percentage alone. -/
theorem c2_counterexample :
    ((getProgress (updateProgressRun true emptyAnn "f" (posAt 100) 1000) "f").map
        fun p => p.isFinished) = some true ∧
    ((getProgress (updateProgressRun true (updateProgressRun true emptyAnn "f" (posAt 100) 1000)
        "f" (posAt 50) 2000) "f").map fun p => p.isFinished) = some false := by
  decide

/-- C2 (amended): on every successful `updateProgress` write the stored
`finished` flag equals `percentage ≥ 100` of the position supplied by that
call alone; the previous flag is not consulted, so the flag is not monotone
and a later sub-100% position clears it. -/
theorem updateProgress_finished_recomputed (st : AnnState) (fid : String)
    (pos : Position) (now : Int) :
    ((getProgress (updateProgressRun true st fid pos now) fid).map
        fun p => p.isFinished) = some (decide (100 ≤ pos.percentage)) := by
  simp [getProgress, updateProgressRun, lookupRP_setRP_self, mkProgressEntry]

/-- C3 counterexample: the caller supplies percentage 150 and the stored
record holds 150, outside [0,100] — no clamping is applied. -/
theorem c3_counterexample :
    ((getProgress (updateProgressRun true emptyAnn "f" (posAt 150) 1000) "f").map
        fun p => p.currentPosition.percentage) = some 150 ∧
    ¬ ((150 : Int) ≤ 100) := by
  decide

/-- C3 (amended): `updateProgress` stores the caller-supplied position
verbatim — the stored percentage equals the supplied percentage, with no
clamping to [0,100]. -/
theorem updateProgress_stores_position_verbatim (st : AnnState) (fid : String)
    (pos : Position) (now : Int) :
    ((getProgress (updateProgressRun true st fid pos now) fid).map
        fun p => p.currentPosition) = some pos := by
  simp [getProgress, updateProgressRun, lookupRP_setRP_self, mkProgressEntry]

/-! ### C4: double start -/

/-- C4 counterexample: two consecutive `startSession` calls for the same
document with no intervening `endSession` add no closed session at all — the
claim demands exactly one additional closed session. -/
theorem c4_counterexample :
    (startSessionRun (startSessionRun emptyAnn "A" "s1" 0) "A" "s2" 60000).readingSessions.length ≠
      (startSessionRun emptyAnn "A" "s1" 0).readingSessions.length + 1 := by
  decide

/-- C4 (amended): a `startSession` call simply overwrites the single
`currentSession` slot with the fresh open session: the prior open session is
discarded without being closed or persisted, the session history and
progress map are unchanged, and there is never more than one open session. -/
theorem startSession_overwrites_slot (st : AnnState) (fid newId : String) (now : Int) :
    (startSessionRun st fid newId now).readingSessions = st.readingSessions ∧
    (startSessionRun st fid newId now).readingProgress = st.readingProgress ∧
    (startSessionRun st fid newId now).annotations = st.annotations ∧
    (startSessionRun st fid newId now).currentSession =
      some { id := newId, fileId := fid, startTime := now, duration := 0 } :=
  ⟨rfl, rfl, rfl, rfl⟩

/-! ### C5: stop duration and cumulative time -/

/-- C5: with an open session, `endSession` (both durable writes succeeding)
appends exactly one closed session whose `duration` is
`floor((endTime − startTime) / 60000)` minutes, the cumulative reading time
stored for that document afterwards equals its value before the stop plus
exactly that duration, and the open-session slot is cleared. -/
theorem endSession_duration_and_total (st : AnnState) (cur : ReadingSession) (now : Int)
    (h : st.currentSession = some cur) :
    (endSessionRun true true st now).readingSessions =
      st.readingSessions ++
        [{ cur with endTime := some now, duration := Int.fdiv (now - cur.startTime) 60000 }] ∧
    ((getProgress (endSessionRun true true st now) cur.fileId).map
        fun p => p.totalReadingTime) =
      some ((((getProgress st cur.fileId).map fun p => p.totalReadingTime).getD 0) +
        Int.fdiv (now - cur.startTime) 60000) ∧
    (endSessionRun true true st now).currentSession = none := by
  cases hl : lookupRP st.readingProgress cur.fileId <;>
    simp [endSessionRun, getProgress, h, hl, lookupRP_setRP_self]

def stW5 : AnnState := startSessionRun emptyAnn "A" "s1" 0

def curW5 : ReadingSession := { id := "s1", fileId := "A", startTime := 0, duration := 0 }

/-- C5 witness: the theorem applied to a concretely opened session ended two
minutes later. -/
theorem endSession_duration_and_total_witness :
    (endSessionRun true true stW5 120000).readingSessions =
      stW5.readingSessions ++
        [{ curW5 with endTime := some 120000, duration := Int.fdiv (120000 - curW5.startTime) 60000 }] ∧
    ((getProgress (endSessionRun true true stW5 120000) curW5.fileId).map
        fun p => p.totalReadingTime) =
      some ((((getProgress stW5 curW5.fileId).map fun p => p.totalReadingTime).getD 0) +
        Int.fdiv (120000 - curW5.startTime) 60000) ∧
    (endSessionRun true true stW5 120000).currentSession = none :=
  endSession_duration_and_total stW5 curW5 120000 rfl

/-! ### C6: reading streak -/

theorem fdiv_day_eq_iff (x : Int) (n : Nat) :
    (Int.fdiv x 86400000 = (n : Int)) ↔
      ((n : Int) * 86400000 ≤ x ∧ x < ((n : Int) + 1) * 86400000) := by
  rw [Int.fdiv_eq_ediv _ (by norm_num)]
  omega

theorem fdiv_day_gt_iff (x : Int) (n : Nat) :
    ((n : Int) < Int.fdiv x 86400000) ↔ (((n : Int) + 1) * 86400000 ≤ x) := by
  rw [Int.fdiv_eq_ediv _ (by norm_num)]
  omega

theorem streakLoop_eq_amendedLoop (l : List ReadingSession) : ∀ (c : Int) (k : Nat),
    streakLoop l c k = amendedStreakLoop l c k := by
  induction l with
  | nil => intro c k; rfl
  | cons s rest ih =>
    intro c k
    simp only [streakLoop, amendedStreakLoop]
    by_cases h1 : Int.fdiv (c - s.startTime) 86400000 = (k : Int)
    · rw [if_pos h1, if_pos ((fdiv_day_eq_iff _ _).mp h1)]
      exact ih _ _
    · rw [if_neg h1, if_neg (fun hc => h1 ((fdiv_day_eq_iff _ _).mpr hc))]
      by_cases h2 : (k : Int) < Int.fdiv (c - s.startTime) 86400000
      · rw [if_pos h2, if_pos ((fdiv_day_gt_iff _ _).mp h2)]
      · rw [if_neg h2, if_neg (fun hc => h2 ((fdiv_day_gt_iff _ _).mpr hc))]
        exact ih _ _

def exSessC6 (i : String) (t : Int) : ReadingSession :=
  { id := i, fileId := "d", startTime := t, endTime := some (t + 60000), duration := 1 }

def exSessionsC6 : List ReadingSession :=
  [exSessC6 "s1" (10 * 86400000), exSessC6 "s2" (9 * 86400000), exSessC6 "s3" (7 * 86400000)]

/-- C6 counterexample: sessions on calendar days 10, 9 and 7 (midnight each),
with "today" being day 10.  The one-calendar-day walk of the claim counts 2
(days 10 and 9; day 8 has no session, so the walk stops at the two-day gap),
but `getReadingStreak` returns 3: its condition `daysDiff === streak` accepts
the day-7 session because it lies exactly `streak = 2` whole days before the
cursor, so a session two days earlier extends the streak. -/
theorem c6_counterexample :
    getReadingStreak exSessionsC6 (10 * 86400000) ≠ claimStreak exSessionsC6 (10 * 86400000) := by
  decide

/-- C6 (amended): the reading-streak query equals the walk over sessions
sorted by start time descending that keeps a cursor (initially now) and a
count (initially 0): a session whose start lies exactly `count` whole
24-hour periods before the cursor (millisecond difference floored) increments
the count and moves the cursor to that start, a session nearer than that is
skipped, and the walk terminates at the first session farther than that —
rather than the one-calendar-day-per-step walk of the claim. -/
theorem getReadingStreak_eq_amended (sessions : List ReadingSession) (today : Int) :
    getReadingStreak sessions today = amendedStreak sessions today :=
  streakLoop_eq_amendedLoop (sortByStartDesc sessions) today 0

/-! ### C7: annotation update round-trip -/

/-- A `Partial<Annotation>` updating exactly one field: the note body. -/
def notePatch (v : String) : AnnotPatch := { note := some (some v) }

/-- C7: updating one field (the note body) of an existing annotation at a
time strictly after its last update and then listing annotations for its
document returns a record in which only that field differs: every other
content field and `createdAt` are unchanged, and `updatedAt` is strictly
greater than before the update. -/
theorem updateAnnot_roundtrip (st : AnnState) (a : Annot) (v : String) (now : Int)
    (ha : a ∈ st.annotations) (ht : a.updatedAt < now) :
    ∃ a', a' ∈ getAnnotationsForFile (updateAnnotRun true st a.id (notePatch v) now).1 a.fileId ∧
      a'.note = some v ∧ a'.id = a.id ∧ a'.fileId = a.fileId ∧ a'.kind = a.kind ∧
      a'.content = a.content ∧ a'.position = a.position ∧ a'.color = a.color ∧
      a'.createdAt = a.createdAt ∧ a.updatedAt < a'.updatedAt := by
  refine ⟨applyPatch a (notePatch v) now, ?_, rfl, rfl, rfl, rfl, rfl, rfl, rfl, rfl, ht⟩
  apply List.mem_filter.mpr
  constructor
  · show applyPatch a (notePatch v) now ∈
      st.annotations.map fun b => if b.id = a.id then applyPatch b (notePatch v) now else b
    exact List.mem_map.mpr ⟨a, ha, by simp⟩
  · simp [applyPatch, notePatch]

def annW7 : Annot :=
  { id := "a1", fileId := "d1", kind := AnnKind.highlight, content := "txt",
    position := {}, color := "#ffeb3b", createdAt := 0, updatedAt := 0 }

def stW7 : AnnState :=
  { annotations := [annW7], readingProgress := [], readingSessions := [], currentSession := none }

/-- C7 witness: the round-trip theorem applied to a concrete annotation whose
note is updated at time 5. -/
theorem updateAnnot_roundtrip_witness :
    ∃ a', a' ∈ getAnnotationsForFile (updateAnnotRun true stW7 annW7.id (notePatch "hello") 5).1 annW7.fileId ∧
      a'.note = some "hello" ∧ a'.id = annW7.id ∧ a'.fileId = annW7.fileId ∧ a'.kind = annW7.kind ∧
      a'.content = annW7.content ∧ a'.position = annW7.position ∧ a'.color = annW7.color ∧
      a'.createdAt = annW7.createdAt ∧ annW7.updatedAt < a'.updatedAt :=
  updateAnnot_roundtrip stW7 annW7 "hello" 5 (by decide) (by decide)

/-! ### C8: failed durable writes and the in-memory mirror -/

def annW8 : Annot :=
  { id := "a1", fileId := "d1", kind := AnnKind.note, content := "c",
    position := {}, color := "#fff", createdAt := 0, updatedAt := 0 }

def stW8 : AnnState :=
  { annotations := [annW8], readingProgress := [], readingSessions := [], currentSession := none }

/-- C8 counterexample: an annotation update whose durable write fails still
changes the in-memory annotation list — `updateAnnotation` installs the new
list before awaiting the store write and its `catch` block does not revert. -/
theorem c8_counterexample :
    (updateAnnotRun false stW8 "a1" (notePatch "x") 5).1.annotations ≠ stW8.annotations := by
  decide

/-- C8 (amended): a failed durable write leaves the in-memory mirror
unchanged for annotation create and delete, progress save, and the session
persist inside `endSession` — but annotation update applies the in-memory
change before the durable write and leaves it in place whether or not the
write succeeds. -/
theorem failed_write_mirror_behavior (st : AnnState) (a : Annot) (i fid : String)
    (p : AnnotPatch) (pos : Position) (now : Int) (okP okDB : Bool) :
    addAnnotRun false st a = st ∧
    deleteAnnotRun false st i = st ∧
    updateProgressRun false st fid pos now = st ∧
    (endSessionRun false okP st now).readingSessions = st.readingSessions ∧
    (endSessionRun false okP st now).readingProgress = st.readingProgress ∧
    (updateAnnotRun okDB st i p now).1.annotations =
      (st.annotations.map fun b => if b.id = i then applyPatch b p now else b) := by
  refine ⟨rfl, rfl, rfl, ?_, ?_, rfl⟩
  · cases h : st.currentSession <;> simp [endSessionRun, h]
  · cases h : st.currentSession <;> simp [endSessionRun, h]

/-! ### C9: update of an unknown annotation id -/

theorem map_update_id_of_absent (i : String) (p : AnnotPatch) (now : Int) :
    ∀ l : List Annot, (∀ a ∈ l, a.id ≠ i) →
      (l.map fun a => if a.id = i then applyPatch a p now else a) = l := by
  intro l
  induction l with
  | nil => intro _; rfl
  | cons a rest ih =>
    intro h
    simp only [List.map_cons]
    rw [if_neg (h a (List.mem_cons_self a rest))]
    rw [ih fun b hb => h b (List.mem_cons_of_mem a hb)]

def annW9 : Annot :=
  { id := "a1", fileId := "d1", kind := AnnKind.bookmark, content := "b",
    position := {}, color := "#fff", createdAt := 0, updatedAt := 0 }

def stW9 : AnnState :=
  { annotations := [annW9], readingProgress := [], readingSessions := [], currentSession := none }

/-- C9 counterexample: updating an id that exists nowhere in the ledger
resolves without any error (the returned rejection flag is `false`, as on
every path of `updateAnnotation`) instead of failing with `NotFound` — the
collection is unchanged, but the call succeeds silently. -/
theorem c9_counterexample :
    (updateAnnotRun true stW9 "missing" (notePatch "x") 7).2 = false ∧
    (updateAnnotRun true stW9 "missing" (notePatch "x") 7).1.annotations = stW9.annotations := by
  decide

/-- C9 (amended): updating an annotation id that does not exist in the ledger
is a silent no-op — the state is unchanged and no error reaches the caller;
no `NotFound` failure is raised. -/
theorem updateAnnot_unknown_id_silent (st : AnnState) (i : String) (p : AnnotPatch)
    (now : Int) (okDB : Bool) (h : ∀ a ∈ st.annotations, a.id ≠ i) :
    (updateAnnotRun okDB st i p now).1 = st ∧
    (updateAnnotRun okDB st i p now).2 = false := by
  constructor
  · show ({ st with annotations :=
        st.annotations.map fun a => if a.id = i then applyPatch a p now else a } : AnnState) = st
    rw [map_update_id_of_absent i p now st.annotations h]
  · rfl

/-- C9 witness: the amended theorem applied to a ledger holding one
annotation and an id matching nothing. -/
theorem updateAnnot_unknown_id_silent_witness :
    (updateAnnotRun true stW9 "absent" (notePatch "y") 9).1 = stW9 ∧
    (updateAnnotRun true stW9 "absent" (notePatch "y") 9).2 = false :=
  updateAnnot_unknown_id_silent stW9 "absent" (notePatch "y") 9 true (by decide)

/-! ### C10: single process-wide open-session slot -/

/-- C10: the session recorder keeps one `currentSession` slot shared across
all documents, so starting a session for document B while a session is open
for a different document A replaces the slot with B's fresh open session:
A's open session is gone from the slot, nothing is appended to the session
history, and no reading time is added to any progress record. -/
theorem startSession_replaces_other_doc (st : AnnState) (sA : ReadingSession)
    (fidB newId : String) (now : Int) (h : st.currentSession = some sA)
    (hne : sA.fileId ≠ fidB) :
    (startSessionRun st fidB newId now).currentSession =
      some { id := newId, fileId := fidB, startTime := now, duration := 0 } ∧
    (startSessionRun st fidB newId now).currentSession ≠ some sA ∧
    (startSessionRun st fidB newId now).readingSessions = st.readingSessions ∧
    (startSessionRun st fidB newId now).readingProgress = st.readingProgress := by
  refine ⟨rfl, ?_, rfl, rfl⟩
  intro hc
  have hc' : some ({ id := newId, fileId := fidB, startTime := now, duration := 0 } :
      ReadingSession) = some sA := hc
  apply hne
  rw [← Option.some.inj hc']

def sessW10 : ReadingSession := { id := "s0", fileId := "A", startTime := 0, duration := 0 }

def stW10 : AnnState :=
  { annotations := [], readingProgress := [], readingSessions := [],
    currentSession := some sessW10 }

/-- C10 witness: the theorem applied to a state with an open session for
document A and a new start for document B. -/
theorem startSession_replaces_other_doc_witness :
    (startSessionRun stW10 "B" "s1" 7).currentSession =
      some { id := "s1", fileId := "B", startTime := 7, duration := 0 } ∧
    (startSessionRun stW10 "B" "s1" 7).currentSession ≠ some sessW10 ∧
    (startSessionRun stW10 "B" "s1" 7).readingSessions = stW10.readingSessions ∧
    (startSessionRun stW10 "B" "s1" 7).readingProgress = stW10.readingProgress :=
  startSession_replaces_other_doc stW10 sessW10 "B" "s1" 7 rfl (by decide)

end DSS
